import Mathlib

/-!
Shallow embedding of the clock-bot program (src/main.rs).

Modelling conventions:
- `f64` arithmetic is modelled exactly over `ℚ` (the properties at stake are
  structural: clamping, EWMA recurrences, case analyses).
- `Duration` / `Instant` values are rationals (seconds); `DateTime<Utc>` is an
  integer count of nanoseconds since the epoch (chrono's `timestamp_subsec_nanos`
  is the floor-based sub-second remainder).
- Header text is a `List Char`; Rust's `str::contains(pat)` is `pat <:+: s`
  (substring / infix).
- The fallible parts of a tick (transport error, HTTP status, JSON body,
  `ok` flag, missing `result`) are modelled by an explicit `RespInput` record;
  `finalize` threads the `Client` state exactly as the source does.
-/

/-- The three-valued server-time reading: `Early` = before the target second,
`Late` = at or after it, `Other` = inconclusive. -/
inductive ServerTime where
  | Early
  | Late
  | Other
deriving DecidableEq, Repr

/-- Two-digit zero-padded rendering of a second value, as produced by the
Rust format string for values below 100 (the program only ever passes
values in [0,59]). -/
def fmt2 (n : Nat) : List Char :=
  [Char.ofNat (48 + n / 10 % 10), Char.ofNat (48 + n % 10)]

/-- The search pattern the code builds for a second value `n`. -/
def secPat (n : Nat) : List Char :=
  ':' :: (fmt2 n ++ [' '])

/-- `ServerTime::from_header`: first checks for the previous-second pattern,
then the target-second pattern. -/
def ServerTime.from_header (s : List Char) (s0 s1 : Nat) : ServerTime :=
  if secPat s0 <:+: s then ServerTime.Early
  else if secPat s1 <:+: s then ServerTime.Late
  else ServerTime.Other

/-- `ServerTime::from_timestamp`: classifies an epoch timestamp by its
seconds-of-minute component. -/
def ServerTime.from_timestamp (timestamp : Nat) (s0 s1 : Nat) : ServerTime :=
  let sec := timestamp % 60
  if sec = s0 then ServerTime.Early
  else if sec = s1 then ServerTime.Late
  else ServerTime.Other

/-- `Client::set_second`: computes the pair `(sec0, sec1)` stored on the
client for the current tick. -/
def set_second (sec : Nat) : Nat × Nat :=
  (if sec = 0 then 59 else sec - 1, sec)

/-- The RTT estimator (`Window`): a single EWMA accumulator. -/
structure Window where
  data : ℚ
deriving DecidableEq, Repr

/-- `Window::ALPHA`. -/
def Window.ALPHA : ℚ := 3 / 10

/-- `Window::new`. -/
def Window.new : Window := { data := 0 }

/-- `Window::push`: a zero accumulator is treated as "no data yet" and is
overwritten by the sample; otherwise the EWMA update is applied. -/
def Window.push (w : Window) (value : ℚ) : Window :=
  if w.data = 0 then { data := value }
  else { data := (1 - Window.ALPHA) * w.data + Window.ALPHA * value }

/-- `Window::avg`. -/
def Window.avg (w : Window) : ℚ := w.data

/-- `Window::is_empty`. -/
def Window.is_empty (w : Window) : Bool := w.data = 0

/-- Fold a list of samples into the estimator. -/
def Window.run (w : Window) (l : List ℚ) : Window := l.foldl Window.push w

/-- The proportional-integral controller state (`Ratio`). -/
structure Ratio where
  v : ℚ
  i : ℚ
deriving DecidableEq, Repr

/-- `Ratio::INITIAL`. -/
def Ratio.INITIAL : ℚ := 1 / 2

/-- `Ratio::K_P`. -/
def Ratio.K_P : ℚ := 1 / 100

/-- `Ratio::K_I`. -/
def Ratio.K_I : ℚ := 1 / 100

/-- Rust's `f64::clamp(lo, hi)`: below `lo` gives `lo`, above `hi` gives
`hi`, otherwise the value itself. -/
def clampQ (x lo hi : ℚ) : ℚ :=
  if x < lo then lo else if hi < x then hi else x

/-- `Ratio::new`. -/
def Ratio.new : Ratio := { v := Ratio.INITIAL, i := 0 }

/-- `Ratio::update`. -/
def Ratio.update (r : Ratio) (error : ℚ) : Ratio :=
  let i := r.i + error
  { v := clampQ (r.v + Ratio.K_P * error + Ratio.K_I * i) 0 1, i := i }

/-- `Ratio::apply` (it reads `v` and mutates nothing). -/
def Ratio.apply (r : Ratio) (dur : ℚ) : ℚ := dur * r.v

/-- Fold a list of errors through `Ratio::update`. -/
def Ratio.run (r : Ratio) (errs : List ℚ) : Ratio := errs.foldl Ratio.update r

/-- The `match (cli.server_time_field, cli.server_time_header)` in the main
loop: the only two mutating arms are (Early, Early) and (Late, Late); the
arms (Early, Late), (Late, Early) (logged as an anomaly) and every arm
involving `Other` return the state unchanged. -/
def ratioStep (field header : ServerTime) (r : Ratio) : Ratio :=
  match field, header with
  | ServerTime.Early, ServerTime.Early => r.update (-1)
  | ServerTime.Early, ServerTime.Late => r
  | ServerTime.Late, ServerTime.Late => r.update 1
  | ServerTime.Late, ServerTime.Early => r
  | _, _ => r

/-- One second, in nanoseconds (`TimeDelta::seconds(1)`). -/
def DELAY : Int := 1000000000

/-- `align_date`: strips the sub-second component
(`date - nanoseconds(date.timestamp_subsec_nanos())`). -/
def align_date (date : Int) : Int := date - date % DELAY

/-- The end-of-loop advance of the virtual clock: `date += DELAY;
if date < now { date = align_date(now) + DELAY }`. -/
def next_date (date now : Int) : Int :=
  let date := date + DELAY
  if date < now then align_date now + DELAY else date

/-- The cursor advance in `Client::edit_message_builder`
(`url_idx += 1; if url_idx >= urls.len() { url_idx = 0 }`),
for a pool of `n` endpoints. -/
def next_url_idx (n idx : Nat) : Nat :=
  if n ≤ idx + 1 then 0 else idx + 1

/-- The cursor value after `k` dispatched requests, starting from 0. -/
def cursorAfter (n : Nat) : Nat → Nat
  | 0 => 0
  | k + 1 => next_url_idx n (cursorAfter n k)

/-- The endpoint index used by the `k`-th dispatched request (0-based):
`edit_message_builder` reads `urls[url_idx]` before advancing the cursor. -/
def used_idx (n k : Nat) : Nat := cursorAfter n k

/-- The outcome-relevant content of one HTTP exchange, as `Client::finalize`
observes it: whether `req.call()` succeeded, whether the status was a
success, the optional `Date` header text (absent also when the header value
is not valid text), and the parsed JSON body `Response { ok, result }`
(`none` = deserialization failure); `result` carries the `edit_date`. -/
structure RespInput where
  transport_ok : Bool
  status_ok : Bool
  date_header : Option (List Char)
  body : Option (Bool × Option Nat)
deriving DecidableEq, Repr

/-- The mutable fields of `Client` that `finalize` / `edit_message` touch. -/
structure ClientState where
  url_idx : Nat
  time0 : ℚ
  time1 : ℚ
  date : Int
  sec0 : Nat
  sec1 : Nat
  server_time_field : ServerTime
  server_time_header : ServerTime
deriving DecidableEq, Repr

/-- `Client::finalize`, with the three clock reads (`Instant::now` for
`time0`, `Utc::now` for `date`, `Instant::now` for `time1`) supplied as
inputs. Mirrors the source order: transport error first; on a non-success
status an early error return with no mutation; on success `time0`/`date`
are recorded, then the `Date` header (when present) overwrites
`server_time_header`, then the body is parsed (`time1` is recorded only
after a successful parse), then `ok` and `result` are checked. -/
def finalize (c : ClientState) (r : RespInput) (now0 : ℚ) (nowDate : Int)
    (now1 : ℚ) : ClientState × Option Nat :=
  if r.transport_ok = false then (c, none)
  else if r.status_ok = false then (c, none)
  else
    let c := { c with time0 := now0, date := nowDate }
    let c := match r.date_header with
      | some d => { c with server_time_header := ServerTime.from_header d c.sec0 c.sec1 }
      | none => c
    match r.body with
    | none => (c, none)
    | some (ok, result) =>
      let c := { c with time1 := now1 }
      if ok = false then (c, none)
      else match result with
        | some res => (c, some res)
        | none => (c, none)

/-- `Client::edit_message`: on a successful `finalize`, classifies the
returned `edit_date` into `server_time_field`. The boolean is `true` iff
the tick's request succeeded end to end. -/
def edit_message (c : ClientState) (r : RespInput) (now0 : ℚ) (nowDate : Int)
    (now1 : ℚ) : ClientState × Bool :=
  match finalize c r now0 nowDate now1 with
  | (c, some edit_date) =>
    ({ c with server_time_field := ServerTime.from_timestamp edit_date c.sec0 c.sec1 }, true)
  | (c, none) => (c, false)

/-- The loop-owned mutable state driven by one tick. -/
structure LoopState where
  cli : ClientState
  win : Window
  avg : ℚ
  ratio : Ratio
deriving DecidableEq, Repr

/-- One iteration of the main loop's state updates around
`cli.edit_message(req)` (`t0` is the `Instant::now()` taken just before the
call). On failure only the client state (as mutated by `finalize`) changes;
on success the controller is stepped from the two stored readings (guarded
by `!win.is_empty()`, checked before the push), then the RTT sample
`cli.time0 - t0` is pushed and `avg` refreshed. -/
def tick (s : LoopState) (r : RespInput) (now0 : ℚ) (nowDate : Int)
    (now1 : ℚ) (t0 : ℚ) : LoopState :=
  match edit_message s.cli r now0 nowDate now1 with
  | (c, false) => { s with cli := c }
  | (c, true) =>
    let ratio := if s.win.is_empty then s.ratio
      else ratioStep c.server_time_field c.server_time_header s.ratio
    let win := s.win.push (c.time0 - t0)
    { cli := c, win := win, avg := win.avg, ratio := ratio }

/-- A client state at the start of a tick with window (sec0 = 4, sec1 = 5)
and no stored readings. -/
def cexClient : ClientState :=
  { url_idx := 0, time0 := 0, time1 := 0, date := 0, sec0 := 4, sec1 := 5,
    server_time_field := ServerTime.Other, server_time_header := ServerTime.Other }

/-- A response whose HTTP status is a success and whose `Date` header reads
second 04, but whose body has `ok = false`: the tick fails semantically. -/
def cexFailResp : RespInput :=
  { transport_ok := true, status_ok := true,
    date_header := some ((":04 ").toList), body := some (false, none) }

/-- A fully successful response that carries no `Date` header; its
`edit_date` is 4 (second 04 of the minute). -/
def cexOkResp : RespInput :=
  { transport_ok := true, status_ok := true, date_header := none,
    body := some (true, some 4) }

/-- A fully successful response with a `Date` header reading second 05 and
`edit_date` 5. -/
def cexOkResp2 : RespInput :=
  { transport_ok := true, status_ok := true,
    date_header := some ((":05 ").toList), body := some (true, some 5) }

/-- A loop state with a non-empty estimator (one prior RTT sample of 1s). -/
def cexLoop : LoopState :=
  { cli := cexClient, win := { data := 1 }, avg := 1, ratio := Ratio.new }

/-- One controller update keeps `v` inside `[0, 1]` (the clamp). -/
theorem update_v_bounds (r : Ratio) (e : ℚ) :
    0 ≤ (r.update e).v ∧ (r.update e).v ≤ 1 := by
  simp only [Ratio.update, clampQ]
  split_ifs with h1 h2
  · exact ⟨le_refl 0, by norm_num⟩
  · exact ⟨by norm_num, le_refl 1⟩
  · exact ⟨by linarith, by linarith⟩

/-- Folding any error sequence preserves the bounds on `v`. -/
theorem run_v_bounds (errs : List ℚ) (r : Ratio) (h0 : 0 ≤ r.v) (h1 : r.v ≤ 1) :
    0 ≤ (r.run errs).v ∧ (r.run errs).v ≤ 1 := by
  induction errs generalizing r with
  | nil => exact ⟨h0, h1⟩
  | cons e es ih =>
    have hb := update_v_bounds r e
    simpa [Ratio.run] using ih (r.update e) hb.1 hb.2

/-- Claim C1: on a tick, the controller state is mutated only when both
server-time readings are non-inconclusive and agree in direction:
(Early, Early) applies `update (-1)`, (Late, Late) applies `update 1`, and
every other combination — the split reading (Early, Late), the anomalous
reversed ordering (Late, Early), and every combination involving `Other` —
leaves both `v` and `i` exactly unchanged. -/
theorem ratioStep_cases (f h : ServerTime) (r : Ratio) :
    (f = ServerTime.Early ∧ h = ServerTime.Early → ratioStep f h r = r.update (-1)) ∧
    (f = ServerTime.Late ∧ h = ServerTime.Late → ratioStep f h r = r.update 1) ∧
    (¬(f = ServerTime.Early ∧ h = ServerTime.Early) →
      ¬(f = ServerTime.Late ∧ h = ServerTime.Late) →
      (ratioStep f h r).v = r.v ∧ (ratioStep f h r).i = r.i) := by
  cases f <;> cases h <;> simp [ratioStep]

/-- Concrete instances of `ratioStep_cases` at each kind of reading pair. -/
theorem ratioStep_cases_witness :
    ratioStep ServerTime.Early ServerTime.Early Ratio.new = Ratio.new.update (-1) ∧
    ratioStep ServerTime.Late ServerTime.Late Ratio.new = Ratio.new.update 1 ∧
    ((ratioStep ServerTime.Late ServerTime.Early Ratio.new).v = Ratio.new.v ∧
      (ratioStep ServerTime.Late ServerTime.Early Ratio.new).i = Ratio.new.i) :=
  ⟨(ratioStep_cases ServerTime.Early ServerTime.Early Ratio.new).1 ⟨rfl, rfl⟩,
   (ratioStep_cases ServerTime.Late ServerTime.Late Ratio.new).2.1 ⟨rfl, rfl⟩,
   (ratioStep_cases ServerTime.Late ServerTime.Early Ratio.new).2.2
     (by simp) (by simp)⟩

/-- Claim C2: starting from the initial controller state `v = 1/2, i = 0`,
after any finite sequence of `update` calls with errors `±1` the
proportional term `v` stays in the closed interval `[0, 1]`, however large
the integral accumulator grows. -/
theorem ratio_run_v_bounded (errs : List ℚ) (h : ∀ e ∈ errs, e = 1 ∨ e = -1) :
    0 ≤ (Ratio.new.run errs).v ∧ (Ratio.new.run errs).v ≤ 1 :=
  run_v_bounds errs Ratio.new (by norm_num [Ratio.new, Ratio.INITIAL])
    (by norm_num [Ratio.new, Ratio.INITIAL])

/-- Concrete instance of `ratio_run_v_bounded` on a three-step sequence. -/
theorem ratio_run_v_bounded_witness :
    0 ≤ (Ratio.new.run [1, -1, -1]).v ∧ (Ratio.new.run [1, -1, -1]).v ≤ 1 :=
  ratio_run_v_bounded [1, -1, -1] (by decide)

/-- Counterexample to claim C4 as stated: with first sample 0 (a valid,
zero-length RTT duration) and second sample 1, the estimate after the
second push is 1, not `0.7·s1 + 0.3·s2 = 3/10` — the zero estimate is
re-treated as "no data yet". -/
theorem window_second_sample_cex :
    ((Window.new.push 0).push 1).data = 1 ∧
    (1 - Window.ALPHA) * 0 + Window.ALPHA * 1 ≠ ((Window.new.push 0).push 1).data := by
  constructor <;> norm_num [Window.new, Window.push, Window.ALPHA]

/-- Claim C4 (amended): provided the first sample is nonzero, the estimate
after the first push equals that sample exactly, after the second push it
equals `0.7·s1 + 0.3·s2`, and in general a push onto a nonzero estimate
applies `estimate = (1 - 0.3)·estimate + 0.3·sample`. -/
theorem window_ewma (s1 s2 : ℚ) (h1 : s1 ≠ 0) :
    (Window.new.push s1).data = s1 ∧
    ((Window.new.push s1).push s2).data = (1 - Window.ALPHA) * s1 + Window.ALPHA * s2 ∧
    (∀ w : Window, w.data ≠ 0 →
      (w.push s2).data = (1 - Window.ALPHA) * w.data + Window.ALPHA * s2) := by
  refine ⟨by simp [Window.new, Window.push], ?_, ?_⟩
  · simp [Window.new, Window.push, h1]
  · intro w hw
    simp [Window.push, hw]

/-- Concrete instance of `window_ewma` at samples 1 and 2. -/
theorem window_ewma_witness :
    (Window.new.push 1).data = 1 ∧
    ((Window.new.push 1).push 2).data = (1 - Window.ALPHA) * 1 + Window.ALPHA * 2 ∧
    (∀ w : Window, w.data ≠ 0 →
      (w.push 2).data = (1 - Window.ALPHA) * w.data + Window.ALPHA * 2) :=
  window_ewma 1 2 (by norm_num)

/-- Counterexample to claim C5 as stated: after pushing the zero-length
duration sample, `is_empty` still returns `true`, although a sample has
been pushed. -/
theorem window_is_empty_cex : (Window.new.push 0).is_empty = true := by
  simp [Window.new, Window.push, Window.is_empty]

/-- A push of a nonnegative sample keeps the accumulator nonnegative. -/
theorem push_nonneg (w : Window) (x : ℚ) (hw : 0 ≤ w.data) (hx : 0 ≤ x) :
    0 ≤ (w.push x).data := by
  by_cases h : w.data = 0
  · simpa [Window.push, h] using hx
  · have hpos : 0 < w.data := lt_of_le_of_ne hw (Ne.symm h)
    have h1 : 0 < (1 - Window.ALPHA) * w.data :=
      mul_pos (by norm_num [Window.ALPHA]) hpos
    have h2 : 0 ≤ Window.ALPHA * x := mul_nonneg (by norm_num [Window.ALPHA]) hx
    simp only [Window.push, if_neg h]
    linarith

/-- For nonnegative samples, a push yields a zero accumulator exactly when
both the accumulator and the sample were zero. -/
theorem push_eq_zero (w : Window) (x : ℚ) (hw : 0 ≤ w.data) (hx : 0 ≤ x) :
    (w.push x).data = 0 ↔ (w.data = 0 ∧ x = 0) := by
  by_cases h : w.data = 0
  · simp [Window.push, h]
  · have hpos : 0 < w.data := lt_of_le_of_ne hw (Ne.symm h)
    have h1 : 0 < (1 - Window.ALPHA) * w.data :=
      mul_pos (by norm_num [Window.ALPHA]) hpos
    have h2 : 0 ≤ Window.ALPHA * x := mul_nonneg (by norm_num [Window.ALPHA]) hx
    have hsum : 0 < (1 - Window.ALPHA) * w.data + Window.ALPHA * x := by linarith
    simp [Window.push, h, hsum.ne']

/-- Folding nonnegative samples: the accumulator is zero exactly when it
started zero and every sample was zero. -/
theorem run_eq_zero (l : List ℚ) (w : Window) (hw : 0 ≤ w.data)
    (h : ∀ x ∈ l, 0 ≤ x) :
    ((w.run l).data = 0) ↔ (w.data = 0 ∧ ∀ x ∈ l, x = 0) := by
  induction l generalizing w with
  | nil => simp [Window.run]
  | cons x xs ih =>
    have hx : 0 ≤ x := h x (by simp)
    have hxs : ∀ y ∈ xs, 0 ≤ y := fun y hy => h y (by simp [hy])
    have hw' : 0 ≤ (w.push x).data := push_nonneg w x hw hx
    have hr : w.run (x :: xs) = (w.push x).run xs := by simp [Window.run]
    rw [hr, ih (w.push x) hw' hxs, push_eq_zero w x hw hx]
    simp only [List.forall_mem_cons]
    tauto

/-- Claim C5 (amended): for any sequence of nonnegative samples (durations
are nonnegative), `is_empty` returns `true` iff every sample pushed so far
was zero; in particular it returns `false` as soon as one positive sample
has been pushed. -/
theorem window_is_empty_iff (l : List ℚ) (h : ∀ x ∈ l, 0 ≤ x) :
    ((Window.new.run l).is_empty = true) ↔ ∀ x ∈ l, x = 0 := by
  have := run_eq_zero l Window.new (by norm_num [Window.new]) h
  simpa [Window.is_empty, Window.new] using this

/-- Concrete instance of `window_is_empty_iff` on the sample list `[1]`. -/
theorem window_is_empty_iff_witness :
    ((Window.new.run [1]).is_empty = true) ↔ ∀ x ∈ [(1 : ℚ)], x = 0 :=
  window_is_empty_iff [1] (by norm_num)

/-- Claim C6: with the window `(s0, s1)` computed by `set_second` from a
target second `sec < 60`, the epoch classifier returns `Early` iff
`timestamp % 60 = s0`, `Late` iff `= s1`, `Other` otherwise; the window
satisfies `s0 = (sec - 1) mod 60` (as integers), with `set_second 5 = (4, 5)`
and `(set_second 0).1 = 59`. -/
theorem from_timestamp_window_spec (ts sec s0 s1 : Nat) (hsec : sec < 60)
    (hw : set_second sec = (s0, s1)) :
    (ServerTime.from_timestamp ts s0 s1 = ServerTime.Early ↔ ts % 60 = s0) ∧
    (ServerTime.from_timestamp ts s0 s1 = ServerTime.Late ↔ ts % 60 = s1) ∧
    (ServerTime.from_timestamp ts s0 s1 = ServerTime.Other ↔
      (ts % 60 ≠ s0 ∧ ts % 60 ≠ s1)) ∧
    (s0 : Int) = ((sec : Int) - 1) % 60 ∧
    set_second 5 = (4, 5) ∧ (set_second 0).1 = 59 := by
  have hs0 : s0 = if sec = 0 then 59 else sec - 1 := by
    have h := congrArg Prod.fst hw
    simpa [set_second] using h.symm
  have hs1 : s1 = sec := by
    have h := congrArg Prod.snd hw
    simpa [set_second] using h.symm
  have hne : s0 ≠ s1 := by
    rw [hs0, hs1]
    by_cases h : sec = 0 <;> simp [h] <;> omega
  refine ⟨?_, ?_, ?_, ?_, by simp [set_second], by simp [set_second]⟩
  · by_cases h0 : ts % 60 = s0
    · simp [ServerTime.from_timestamp, h0]
    · by_cases h1 : ts % 60 = s1 <;> simp [ServerTime.from_timestamp, h0, h1]
  · by_cases h0 : ts % 60 = s0
    · simp [ServerTime.from_timestamp, h0, hne]
    · by_cases h1 : ts % 60 = s1 <;>
        simp [ServerTime.from_timestamp, h0, h1, Ne.symm hne]
  · by_cases h0 : ts % 60 = s0
    · simp [ServerTime.from_timestamp, h0]
    · by_cases h1 : ts % 60 = s1 <;>
        simp [ServerTime.from_timestamp, h0, h1, Ne.symm hne]
  · rw [hs0]
    by_cases h : sec = 0
    · simp [h]
    · rw [if_neg h]
      have h1 : 1 ≤ sec := Nat.one_le_iff_ne_zero.mpr h
      have he : ((sec : Int) - 1) % 60 = (sec : Int) - 1 :=
        Int.emod_eq_of_lt (by omega) (by omega)
      rw [he]
      omega

/-- Concrete instance of `from_timestamp_window_spec` at `ts = 124`,
`sec = 5` (so `124 % 60 = 4 = s0`). -/
theorem from_timestamp_window_spec_witness :
    (ServerTime.from_timestamp 124 4 5 = ServerTime.Early ↔ 124 % 60 = 4) ∧
    (ServerTime.from_timestamp 124 4 5 = ServerTime.Late ↔ 124 % 60 = 5) ∧
    (ServerTime.from_timestamp 124 4 5 = ServerTime.Other ↔
      (124 % 60 ≠ 4 ∧ 124 % 60 ≠ 5)) ∧
    ((4 : Nat) : Int) = ((5 : Int) - 1) % 60 ∧
    set_second 5 = (4, 5) ∧ (set_second 0).1 = 59 :=
  from_timestamp_window_spec 124 5 4 5 (by norm_num) (by decide)

/-- Claim C7: for the text classifier with window `(4, 5)`, a text
containing the substring `":04 "` yields `Early`; one containing `":05 "`
but not `":04 "` yields `Late`; one containing neither yields `Other`.
The built patterns are exactly those two substrings. -/
theorem from_header_window45 (s : List Char) :
    secPat 4 = (":04 ").toList ∧ secPat 5 = (":05 ").toList ∧
    ((":04 ").toList <:+: s → ServerTime.from_header s 4 5 = ServerTime.Early) ∧
    ((":05 ").toList <:+: s → ¬ ((":04 ").toList <:+: s) →
      ServerTime.from_header s 4 5 = ServerTime.Late) ∧
    (¬ ((":04 ").toList <:+: s) → ¬ ((":05 ").toList <:+: s) →
      ServerTime.from_header s 4 5 = ServerTime.Other) := by
  have h4 : secPat 4 = (":04 ").toList := by decide
  have h5 : secPat 5 = (":05 ").toList := by decide
  refine ⟨h4, h5, ?_, ?_, ?_⟩
  · intro h
    simp only [ServerTime.from_header, h4]
    rw [if_pos h]
  · intro h hn
    simp only [ServerTime.from_header, h4, h5]
    rw [if_neg hn, if_pos h]
  · intro hn4 hn5
    simp only [ServerTime.from_header, h4, h5]
    rw [if_neg hn4, if_neg hn5]

/-- Concrete instance of `from_header_window45` on a header text containing
`":04 "`. -/
theorem from_header_window45_witness :
    ServerTime.from_header ((" 12:34:04 GMT").toList) 4 5 = ServerTime.Early :=
  (from_header_window45 ((" 12:34:04 GMT").toList)).2.2.1 (by decide)

/-- Claim C10: when a header text contains both the previous-second pattern
and the target-second pattern, the text classifier returns `Early`: the
previous-second check runs first and takes priority. -/
theorem from_header_both_match (s : List Char) (s0 s1 : Nat)
    (h0 : secPat s0 <:+: s) (h1 : secPat s1 <:+: s) :
    ServerTime.from_header s s0 s1 = ServerTime.Early := by
  simp only [ServerTime.from_header]
  rw [if_pos h0]

/-- Concrete instance of `from_header_both_match` on a text containing both
`":04 "` and `":05 "`. -/
theorem from_header_both_match_witness :
    ServerTime.from_header ((":04 :05 ").toList) 4 5 = ServerTime.Early :=
  from_header_both_match ((":04 :05 ").toList) 4 5 (by decide) (by decide)

/-- Claim C8: when the post-advance target second is earlier than the
current real time, the next target is `align_date now + DELAY` — which is
never the plain `date + DELAY` it would otherwise be — and otherwise the
target advances by exactly one second. -/
theorem next_date_spec (date now : Int) :
    (date + DELAY < now →
      next_date date now = align_date now + DELAY ∧
      next_date date now ≠ date + DELAY) ∧
    (¬ date + DELAY < now → next_date date now = date + DELAY) := by
  constructor
  · intro h
    refine ⟨by simp [next_date, h], ?_⟩
    simp only [next_date, if_pos h, align_date, DELAY]
    simp only [DELAY] at h
    omega
  · intro h
    simp [next_date, h]

/-- Concrete instances of `next_date_spec`: a loop five seconds behind real
time realigns, and an on-schedule loop advances by one second. -/
theorem next_date_spec_witness :
    (next_date 0 (5 * DELAY + 7) = align_date (5 * DELAY + 7) + DELAY ∧
      next_date 0 (5 * DELAY + 7) ≠ 0 + DELAY) ∧
    next_date 0 0 = 0 + DELAY :=
  ⟨(next_date_spec 0 (5 * DELAY + 7)).1 (by norm_num [DELAY]),
   (next_date_spec 0 0).2 (by norm_num [DELAY])⟩

/-- The cursor after `k` dispatches from a pool of `n` endpoints is
`k % n`. -/
theorem cursorAfter_mod (n : Nat) (hn : 0 < n) (k : Nat) :
    cursorAfter n k = k % n := by
  induction k with
  | zero => simp [cursorAfter]
  | succ k ih =>
    have hlt : k % n < n := Nat.mod_lt _ hn
    have hmm : (k + 1) % n = (k % n + 1) % n := (Nat.mod_add_mod k n 1).symm
    rw [cursorAfter, ih, next_url_idx]
    by_cases hc : n ≤ k % n + 1
    · have he : k % n + 1 = n := le_antisymm hlt hc
      rw [if_pos hc, hmm, he, Nat.mod_self]
    · have h2 : k % n + 1 < n := Nat.lt_of_not_le hc
      rw [if_neg hc, hmm, Nat.mod_eq_of_lt h2]

/-- Claim C9: with `n` endpoints the cursor starts at 0 and advances by one
modulo `n` after every dispatched request; the `k`-th dispatch uses
endpoint `k % n`, so the first `n` dispatches use each endpoint exactly
once in the pool's original order, and the pattern repeats with period
`n` (the cursor is never reset). -/
theorem round_robin_spec (n : Nat) (hn : 0 < n) :
    cursorAfter n 0 = 0 ∧
    (∀ k, cursorAfter n (k + 1) = (cursorAfter n k + 1) % n) ∧
    (∀ k, used_idx n k = k % n) ∧
    (List.range n).map (used_idx n) = List.range n ∧
    (∀ k, used_idx n (k + n) = used_idx n k) := by
  have hmod := cursorAfter_mod n hn
  refine ⟨rfl, ?_, ?_, ?_, ?_⟩
  · intro k
    rw [hmod, hmod]
    exact (Nat.mod_add_mod k n 1).symm
  · intro k
    exact hmod k
  · have hid : ∀ k ∈ List.range n, used_idx n k = id k := by
      intro k hk
      have : used_idx n k = k % n := hmod k
      rw [this, id]
      exact Nat.mod_eq_of_lt (List.mem_range.mp hk)
    rw [List.map_congr_left hid, List.map_id]
  · intro k
    have h1 : used_idx n (k + n) = (k + n) % n := hmod (k + n)
    have h2 : used_idx n k = k % n := hmod k
    rw [h1, h2, Nat.add_mod_right]

/-- Concrete instances of `round_robin_spec` for a pool of three
endpoints. -/
theorem round_robin_spec_witness :
    cursorAfter 3 0 = 0 ∧ used_idx 3 4 = 4 % 3 ∧
    (List.range 3).map (used_idx 3) = List.range 3 ∧
    used_idx 3 (2 + 3) = used_idx 3 2 := by
  have h := round_robin_spec 3 (by norm_num)
  exact ⟨h.1, h.2.2.1 4, h.2.2.2.1, h.2.2.2.2 2⟩

/-- `finalize` never touches `server_time_field`, `sec0` or `sec1`. -/
theorem finalize_fst_fields (c : ClientState) (r : RespInput) (now0 : ℚ)
    (nowDate : Int) (now1 : ℚ) :
    (finalize c r now0 nowDate now1).1.server_time_field = c.server_time_field ∧
    (finalize c r now0 nowDate now1).1.sec0 = c.sec0 ∧
    (finalize c r now0 nowDate now1).1.sec1 = c.sec1 := by
  obtain ⟨tok, sok, dh, body⟩ := r
  cases tok <;> cases sok <;>
    (rcases dh with _ | d) <;>
    (rcases body with _ | ⟨ok, res⟩) <;>
    (try rcases res with _ | e) <;>
    (try cases ok) <;>
    simp [finalize]

/-- Counterexample to claim C3 as stated. First tick: the response has a
successful HTTP status and a `Date` header reading second 04, but its body
carries `ok = false`, so the tick fails — yet the stored header-based
classifier reading changes from `Other` to `Early`. Second tick: a fully
successful response without a `Date` header; the controller update of this
successful tick consumes the header reading recorded during the failed
tick (together with this tick's epoch reading `Early`) and applies
`update (-1)`, mutating the controller from data of the failed tick. -/
theorem failed_tick_state_cex :
    (edit_message cexLoop.cli cexFailResp 1 1 1).2 = false ∧
    (tick cexLoop cexFailResp 1 1 1 0).cli.server_time_header ≠
      cexLoop.cli.server_time_header ∧
    (edit_message (tick cexLoop cexFailResp 1 1 1 0).cli cexOkResp 2 2 2).2 = true ∧
    (tick (tick cexLoop cexFailResp 1 1 1 0) cexOkResp 2 2 2 1).ratio =
      Ratio.update cexLoop.ratio (-1) ∧
    Ratio.update cexLoop.ratio (-1) ≠ cexLoop.ratio := by
  refine ⟨by decide, by decide, by decide, rfl, ?_⟩
  intro h
  have hi := congrArg Ratio.i h
  norm_num [cexLoop, Ratio.new, Ratio.update] at hi

/-- Claim C3 (amended): a failed tick leaves the estimator (`win`, `avg`),
the controller (`ratio`) and the epoch-based classifier reading unchanged
(only the header reading and timing fields may be overwritten when the HTTP
status was a success); and a successful tick whose response carries a
`Date` header performs its controller update using exactly the two readings
derived from that tick's own response. -/
theorem tick_failure_isolation (s : LoopState) (r : RespInput) (now0 : ℚ)
    (nowDate : Int) (now1 : ℚ) (t0 : ℚ) :
    ((edit_message s.cli r now0 nowDate now1).2 = false →
      (tick s r now0 nowDate now1 t0).win = s.win ∧
      (tick s r now0 nowDate now1 t0).avg = s.avg ∧
      (tick s r now0 nowDate now1 t0).ratio = s.ratio ∧
      (tick s r now0 nowDate now1 t0).cli.server_time_field =
        s.cli.server_time_field) ∧
    (∀ d e, r.transport_ok = true → r.status_ok = true →
      r.date_header = some d → r.body = some (true, some e) →
      (tick s r now0 nowDate now1 t0).ratio =
        (if s.win.is_empty then s.ratio
         else ratioStep (ServerTime.from_timestamp e s.cli.sec0 s.cli.sec1)
           (ServerTime.from_header d s.cli.sec0 s.cli.sec1) s.ratio)) := by
  constructor
  · intro hb
    rcases hF : finalize s.cli r now0 nowDate now1 with ⟨c, res⟩
    rcases res with _ | e
    · have hc : c.server_time_field = s.cli.server_time_field := by
        have h := (finalize_fst_fields s.cli r now0 nowDate now1).1
        rw [hF] at h
        exact h
      simp [tick, edit_message, hF, hc]
    · simp [edit_message, hF] at hb
  · intro d e htok hsok hdh hbody
    obtain ⟨tok, sok, dh, body⟩ := r
    simp only at htok hsok hdh hbody
    subst htok
    subst hsok
    subst hdh
    subst hbody
    simp [tick, edit_message, finalize]

/-- Concrete instances of `tick_failure_isolation`: a semantically failed
tick leaves estimator/controller state untouched, and a successful tick
with a `Date` header updates the controller from its own readings. -/
theorem tick_failure_isolation_witness :
    ((tick cexLoop cexFailResp 1 1 1 0).win = cexLoop.win ∧
      (tick cexLoop cexFailResp 1 1 1 0).avg = cexLoop.avg ∧
      (tick cexLoop cexFailResp 1 1 1 0).ratio = cexLoop.ratio ∧
      (tick cexLoop cexFailResp 1 1 1 0).cli.server_time_field =
        cexLoop.cli.server_time_field) ∧
    (tick cexLoop cexOkResp2 1 1 1 0).ratio =
      (if cexLoop.win.is_empty then cexLoop.ratio
       else ratioStep (ServerTime.from_timestamp 5 cexLoop.cli.sec0 cexLoop.cli.sec1)
         (ServerTime.from_header ((":05 ").toList) cexLoop.cli.sec0 cexLoop.cli.sec1)
         cexLoop.ratio) :=
  ⟨(tick_failure_isolation cexLoop cexFailResp 1 1 1 0).1 (by decide),
   (tick_failure_isolation cexLoop cexOkResp2 1 1 1 0).2 ((":05 ").toList) 5
     rfl rfl rfl rfl⟩
